import Mathlib

/-!
Shallow embedding of the leaderboard scoring and decay subsystem of the
octa-focus backend: session-completion statistics aggregation
(complete_session.ts : updateUserStats / calculateLeaderboardScore),
the score decay sweep (updateLeaderboardScores), the leaderboard query
(getLeaderboard) and the per-user stats query with its read-triggered
streak reset (get_user_stats.ts).

Timestamps are JavaScript epoch milliseconds, modelled as integers.
The `leaderboard_score` column is a floating-point `real` column; it is
modelled as a real number, and the SQL `POWER(0.98, elapsedDays)` with a
fractional exponent as real exponentiation.
-/

namespace OctaFocus

/-- Epoch milliseconds, as produced by JavaScript Date.getTime(). -/
abbrev Timestamp := Int

/-- One day in milliseconds (1000 * 60 * 60 * 24). -/
def dayMs : Int := 86400000

/-- A row of the user_stats table (db/schema.ts, userStatsTable). -/
structure UserStats where
  id : Nat
  user_id : Nat
  category : String
  total_sessions : Nat
  completed_sessions : Nat
  total_duration : Nat
  streak_days : Nat
  last_activity : Option Timestamp
  leaderboard_score : ℝ
  last_score_update : Timestamp
  created_at : Timestamp
  updated_at : Timestamp

/-- A row of the sessions table, restricted to the fields the modelled
handlers read or write. -/
structure SessionRow where
  id : Nat
  user_id : Nat
  goal_id : Nat
  status : String
  planned_duration : Nat
  actual_duration : Option Nat
  completed_at : Option Timestamp
  updated_at : Timestamp

/-- A goal row, restricted to the fields updateUserStats reads. -/
structure Goal where
  id : Nat
  category : String

/-- JavaScript `a || b` on a number `a` that may be absent: both
`undefined`/`null` and `0` are falsy and select `b`. -/
def jsOr (a : Option Nat) (b : Nat) : Nat :=
  match a with
  | some x => if x = 0 then b else x
  | none => b

/-- calculateLeaderboardScore (complete_session.ts lines 149-154):
base score from sessions and duration, streak bonus capped at 100.
The source gives streakDays the default value 1; call sites pass it
explicitly here. -/
def calculateLeaderboardScore (completedSessions totalDuration streakDays : Nat) : Nat :=
  let baseScore := completedSessions * 10 + totalDuration / 10
  let streakBonus := min (streakDays * 5) 100
  baseScore + streakBonus

/-- The streak computation of updateUserStats (lines 109-122):
daysDiff = Math.floor((now - lastActivity) / (1000*60*60*24));
if daysDiff <= 1 the streak gains 1 only when daysDiff === 1, otherwise
it resets to 1; with no previous lastActivity it becomes 1. -/
def computeNewStreak (now : Timestamp) (stats : UserStats) : Nat :=
  match stats.last_activity with
  | some lastActivity =>
      let daysDiff : Int := ⌊(((now - lastActivity : Int) : ℚ) / (dayMs : ℚ))⌋
      if daysDiff ≤ 1 then
        stats.streak_days + (if daysDiff = 1 then 1 else 0)
      else
        1
  | none => 1

/-- A fresh serial id for an inserted row. -/
def nextId (table : List UserStats) : Nat :=
  table.foldr (fun r m => max r.id m) 0 + 1

/-- The body of updateUserStats after the category has been resolved from
the goal of the session (complete_session.ts lines 75-142): the StatsAggregator
contract recordCompletion(userId, category, actualDurationMinutes, now).
If no stats row exists for (userId, category) a fresh one is inserted;
otherwise every row matching (userId, category) is updated from the first
previous values of the first matching row. -/
def recordCompletion (userId : Nat) (category : String) (actualDuration : Nat)
    (now : Timestamp) (table : List UserStats) : List UserStats :=
  let existingStats := table.filter fun s => decide (s.user_id = userId ∧ s.category = category)
  match existingStats.head? with
  | none =>
      table ++ [{
        id := nextId table
        user_id := userId
        category := category
        total_sessions := 1
        completed_sessions := 1
        total_duration := actualDuration
        streak_days := 1
        last_activity := some now
        leaderboard_score := (calculateLeaderboardScore 1 actualDuration 1 : ℝ)
        last_score_update := now
        created_at := now
        updated_at := now }]
  | some stats =>
      let newTotalSessions := stats.total_sessions + 1
      let newCompletedSessions := stats.completed_sessions + 1
      let newTotalDuration := stats.total_duration + actualDuration
      let newStreak := computeNewStreak now stats
      let newScore := calculateLeaderboardScore newCompletedSessions newTotalDuration newStreak
      table.map fun s =>
        if s.user_id = userId ∧ s.category = category then
          { s with
            total_sessions := newTotalSessions
            completed_sessions := newCompletedSessions
            total_duration := newTotalDuration
            streak_days := newStreak
            last_activity := some now
            leaderboard_score := (newScore : ℝ)
            last_score_update := now
            updated_at := now }
        else s

/-- updateUserStats (complete_session.ts lines 59-147): resolves the
goal of the session to find the category, then applies recordCompletion; when
the goal is missing the table is left unchanged. -/
def updateUserStats (userId : Nat) (session : SessionRow) (goals : List Goal)
    (now : Timestamp) (table : List UserStats) : List UserStats :=
  match (goals.filter fun g => decide (g.id = session.goal_id)).head? with
  | none => table
  | some goal =>
      recordCompletion userId goal.category
        (jsOr session.actual_duration session.planned_duration) now table

/-- Input of completeSession. -/
structure CompleteSessionInput where
  session_id : Nat
  actual_duration : Option Nat

/-- completeSession (complete_session.ts lines 6-57). `statsWriteFails`
injects a persistence failure into the stats update; the source catches
that failure inside updateUserStats, logs it and does not re-throw, so the
completed session is still returned and only the stats write is lost.
Session-lookup and not-active errors are thrown to the caller. -/
def completeSession (statsWriteFails : Bool) (input : CompleteSessionInput)
    (now : Timestamp) (sessions : List SessionRow) (goals : List Goal)
    (table : List UserStats) : Except String (SessionRow × List UserStats) :=
  match (sessions.filter fun s => decide (s.id = input.session_id)).head? with
  | none => .error ("Session not found")
  | some session =>
      if session.status = "active" then
        let updatedSession : SessionRow :=
          { session with
            status := "completed"
            completed_at := some now
            actual_duration := some (jsOr input.actual_duration session.planned_duration)
            updated_at := now }
        let newTable :=
          if statsWriteFails then table
          else updateUserStats session.user_id updatedSession goals now table
        .ok (updatedSession, newTable)
      else
        .error ("Session is not active")

/-- The WHERE clause of the decay sweep (updateLeaderboardScores,
line 180): last_score_update < now - 24h AND leaderboard_score > 0. -/
def decayEligible (now : Timestamp) (s : UserStats) : Prop :=
  s.last_score_update < now - dayMs ∧ 0 < s.leaderboard_score

noncomputable instance (now : Timestamp) (s : UserStats) : Decidable (decayEligible now s) :=
  instDecidableAnd

/-- The decayed row (lines 165-178): elapsed days are fractional, not
floored, and the new score is leaderboard_score * 0.98 ^ elapsedDays;
last_score_update is advanced to now. -/
noncomputable def decayRecord (now : Timestamp) (s : UserStats) : UserStats :=
  let elapsedDays : ℝ := ((now - s.last_score_update : Int) : ℝ) / (dayMs : ℝ)
  { s with
    leaderboard_score := s.leaderboard_score * (0.98 : ℝ) ^ elapsedDays
    last_score_update := now }

/-- updateLeaderboardScores (lines 158-189): one bulk update of every
eligible row, returning the number of rows matched by the WHERE clause. -/
noncomputable def updateLeaderboardScores (now : Timestamp) (table : List UserStats) :
    List UserStats × Nat :=
  (table.map fun s => if decayEligible now s then decayRecord now s else s,
   table.countP fun s => decide (decayEligible now s))

/-- The decay sweep as invoked by its caller/scheduler: the source wraps
the sweep in try/catch and re-throws any failure, so an injected
persistence failure propagates as an error. -/
noncomputable def runUpdateLeaderboardScores (sweepFails : Bool) (now : Timestamp)
    (table : List UserStats) : Except String (List UserStats × Nat) :=
  if sweepFails then .error ("Leaderboard score update failed")
  else .ok (updateLeaderboardScores now table)

/-- ORDER BY leaderboard_score DESC, as a relation on rows. -/
def scoreDescOrder (a b : UserStats) : Prop :=
  b.leaderboard_score ≤ a.leaderboard_score

noncomputable instance : DecidableRel scoreDescOrder :=
  fun _ _ => Real.decidableLE _ _

instance : IsTotal UserStats scoreDescOrder :=
  ⟨fun a b => le_total b.leaderboard_score a.leaderboard_score⟩

instance : IsTrans UserStats scoreDescOrder :=
  ⟨fun _ _ _ h1 h2 => le_trans h2 h1⟩

/-- Input of getLeaderboard. -/
structure GetLeaderboardInput where
  category : Option String
  limit : Option Nat

/-- getLeaderboardInputSchema (schema.ts): limit is optional, positive and
at most 100. -/
def getLeaderboardInputValid (input : GetLeaderboardInput) : Prop :=
  ∀ l, input.limit = some l → 0 < l ∧ l ≤ 100

/-- getLeaderboard (get_leaderboard handler): `input.limit || 10` (JS
falsy semantics, so an absent limit defaults to 10), optional category
filter, ORDER BY leaderboard_score DESC, LIMIT. -/
noncomputable def getLeaderboard (input : GetLeaderboardInput) (table : List UserStats) :
    List UserStats :=
  let limit := match input.limit with
    | some l => if l = 0 then 10 else l
    | none => 10
  let filtered := match input.category with
    | some c => table.filter fun s => decide (s.category = c)
    | none => table
  (List.insertionSort scoreDescOrder filtered).take limit

/-- SQL gte on a nullable timestamp: false when the value is NULL. -/
def timeAtLeast (threshold : Timestamp) (o : Option Timestamp) : Bool :=
  match o with
  | some t => decide (threshold ≤ t)
  | none => false

/-- SQL lt on a nullable timestamp: false when the value is NULL (the
source also guards with `stat.last_activity &&`). -/
def timeBefore (threshold : Timestamp) (o : Option Timestamp) : Bool :=
  match o with
  | some t => decide (t < threshold)
  | none => false

/-- The sessions the streak-reset check of getUserStats looks for
(get_user_stats.ts lines 36-45): completed sessions of the user whose
completed_at is at or after the threshold. -/
def recentCompletedSessions (userId : Nat) (threshold : Timestamp)
    (sessions : List SessionRow) : List SessionRow :=
  sessions.filter fun s =>
    decide (s.user_id = userId ∧ s.status = "completed") &&
      timeAtLeast threshold s.completed_at

/-- The condition under which getUserStats resets a stats row
(get_user_stats.ts lines 34 and 48): last_activity exists and is older
than the threshold, the user has no recent completed session, and
streak_days > 0. -/
def streakResetEligible (userId : Nat) (now : Timestamp) (sessions : List SessionRow)
    (s : UserStats) : Prop :=
  timeBefore (now - dayMs) s.last_activity = true ∧
  (recentCompletedSessions userId (now - dayMs) sessions).length = 0 ∧
  0 < s.streak_days

instance (userId : Nat) (now : Timestamp) (sessions : List SessionRow) (s : UserStats) :
    Decidable (streakResetEligible userId now sessions s) :=
  instDecidableAnd

/-- The write getUserStats performs on an eligible row (lines 49-56):
streak_days := 0 and last_score_update := now; nothing else changes. -/
def resetStreak (now : Timestamp) (s : UserStats) : UserStats :=
  { s with streak_days := 0, last_score_update := now }

/-- ORDER BY category DESC. -/
def categoryDescOrder (a b : UserStats) : Prop :=
  b.category ≤ a.category

instance : DecidableRel categoryDescOrder :=
  fun _ _ => String.decidableLE _ _

/-- The optional category filter of getUserStats: matches everything when
no category is given. -/
def categoryMatches (category : Option String) (s : UserStats) : Bool :=
  match category with
  | some c => s.category == c
  | none => true

/-- getUserStats (get_user_stats.ts lines 6-72): selects the stats of the user
rows (optionally category-filtered) ordered by category descending, and
for each returned row that is streak-reset eligible writes streak_days=0
and last_score_update=now back to the table and returns the updated row.
Returns (results, new table). -/
def getUserStats (userId : Nat) (category : Option String) (now : Timestamp)
    (sessions : List SessionRow) (table : List UserStats) :
    List UserStats × List UserStats :=
  let queried := table.filter fun s =>
    decide (s.user_id = userId) && categoryMatches category s
  let ordered := List.insertionSort categoryDescOrder queried
  let results := ordered.map fun s =>
    if streakResetEligible userId now sessions s then resetStreak now s else s
  let newTable := table.map fun s =>
    if s.user_id = userId ∧ categoryMatches category s = true ∧
        streakResetEligible userId now sessions s then
      resetStreak now s
    else s
  (results, newTable)

/-- The per-row state invariant of the stats table (spec section 3). -/
def StatsInvariant (s : UserStats) : Prop :=
  s.completed_sessions ≤ s.total_sessions ∧ 0 ≤ s.leaderboard_score

/-- The invariant over every row of the table. -/
def TableInvariant (table : List UserStats) : Prop :=
  ∀ s ∈ table, StatsInvariant s

/-- Fallback row for position-indexed access. -/
def dummyStats : UserStats :=
  ⟨0, 0, "", 0, 0, 0, 0, none, 0, 0, 0, 0⟩

/-- Sample row: user 1, category physical, 3 completed sessions, 100
minutes, streak 3, last activity and last score update at epoch 0. -/
def c1Stats : UserStats :=
  ⟨5, 1, "physical", 3, 3, 100, 3, some 0, 45, 0, 0, 0⟩

/-- Sample row with positive score last updated at epoch 0. -/
def cSweepStats : UserStats :=
  ⟨1, 1, "physical", 3, 3, 100, 3, some 0, 50, 0, 0, 0⟩

/-- Sample row updated 12 hours before the two-day mark (within the 24h
grace window at now = 2 days). -/
def cFreshStats : UserStats :=
  ⟨3, 3, "physical", 3, 3, 100, 3, some 0, 50, 129600000, 0, 0⟩

/-- Sample active session. -/
def cSessionRow : SessionRow :=
  ⟨4, 1, 8, "active", 25, none, none, 0⟩

/-- Sample goal, the goal of cSessionRow. -/
def cGoal : Goal :=
  ⟨8, "physical"⟩

/-- Sample leaderboard rows with mixed categories and scores. -/
def cLeader1 : UserStats := ⟨1, 1, "physical", 1, 1, 10, 1, some 0, 85.25, 0, 0, 0⟩

def cLeader2 : UserStats := ⟨2, 2, "mental", 1, 1, 10, 1, some 0, 245.75, 0, 0, 0⟩

def cLeader3 : UserStats := ⟨3, 3, "physical", 1, 1, 10, 1, some 0, 150.5, 0, 0, 0⟩

/-!  Theorems settling the claims.  -/

/-- C1 counterexample: a completion on the same day as the previous
activity (daysSinceLastActivity = 0 ≤ 0) leaves the streak at 3; the
claim predicts previous streak + 1 = 4. -/
theorem C1_counterexample :
    (recordCompletion 1 "physical" 10 0 [c1Stats]).map (fun s => s.streak_days) = [3] ∧
    ([3] : List Nat) ≠ [c1Stats.streak_days + 1] := by
  constructor
  · norm_num [recordCompletion, computeNewStreak, c1Stats, dayMs]
  · norm_num [c1Stats]

/-- C1 amended: with daysSinceLastActivity = floor((now − previous
lastActivity) / 1 day), recordCompletion sets the streak of every updated
record to previous + 1 when daysSinceLastActivity = 1, leaves it
unchanged when daysSinceLastActivity ≤ 0 (same day), and resets it to 1
when daysSinceLastActivity > 1. -/
theorem C1_streak_update (u : Nat) (c : String) (d : Nat) (now : Timestamp)
    (t : List UserStats) (s0 : UserStats) (la : Timestamp)
    (hHead : (t.filter fun s => decide (s.user_id = u ∧ s.category = c)).head? = some s0)
    (hla : s0.last_activity = some la) :
    ∀ r ∈ recordCompletion u c d now t, r.user_id = u → r.category = c →
      (⌊(((now - la : Int) : ℚ) / (dayMs : ℚ))⌋ = 1 → r.streak_days = s0.streak_days + 1) ∧
      (⌊(((now - la : Int) : ℚ) / (dayMs : ℚ))⌋ ≤ 0 → r.streak_days = s0.streak_days) ∧
      (1 < ⌊(((now - la : Int) : ℚ) / (dayMs : ℚ))⌋ → r.streak_days = 1) := by
  intro r hr hru hrc
  unfold recordCompletion at hr
  simp only [hHead, List.mem_map] at hr
  obtain ⟨x, _, rfl⟩ := hr
  by_cases hm : x.user_id = u ∧ x.category = c
  · rw [if_pos hm]
    simp only
    unfold computeNewStreak
    rw [hla]
    simp only
    refine ⟨fun h1 => ?_, fun h0 => ?_, fun hgt => ?_⟩
    · rw [if_pos (le_of_eq h1), if_pos h1]
    · rw [if_pos (le_trans h0 (by norm_num)), if_neg (by omega), Nat.add_zero]
    · rw [if_neg (by omega)]
  · rw [if_neg hm] at hru hrc
    exact absurd ⟨hru, hrc⟩ hm

/-- C1 witness: next-day completion (daysSinceLastActivity = 1) on
c1Stats bumps the streak from 3 to 4. -/
theorem C1_witness :
    (([c1Stats].filter fun s => decide (s.user_id = 1 ∧ s.category = "physical")).head?
        = some c1Stats) ∧
    c1Stats.last_activity = some 0 ∧
    ((⟨5, 1, "physical", 4, 4, 110, 4, some 86400000, (71 : ℝ), 86400000, 0, 86400000⟩ :
        UserStats) ∈ recordCompletion 1 "physical" 10 86400000 [c1Stats]) ∧
    (⌊(((86400000 - 0 : Int) : ℚ) / (dayMs : ℚ))⌋ = 1 →
      (⟨5, 1, "physical", 4, 4, 110, 4, some 86400000, (71 : ℝ), 86400000, 0, 86400000⟩ :
        UserStats).streak_days = c1Stats.streak_days + 1) := by
  have hmem : (⟨5, 1, "physical", 4, 4, 110, 4, some 86400000, (71 : ℝ), 86400000, 0,
      86400000⟩ : UserStats) ∈ recordCompletion 1 "physical" 10 86400000 [c1Stats] := by
    norm_num [recordCompletion, computeNewStreak, calculateLeaderboardScore, c1Stats, dayMs]
  exact ⟨rfl, rfl, hmem,
    (C1_streak_update 1 "physical" 10 86400000 [c1Stats] c1Stats 0 rfl rfl _ hmem rfl rfl).1⟩

/-- C2 counterexample: the first completion of 35 minutes creates a
record whose leaderboard score is score(1,35,1) = 1*10 + floor(35/10) +
min(5,100) = 18, not 45 as the claim states. -/
theorem C2_counterexample :
    (recordCompletion 1 "physical" 35 1000 []).map (fun s => s.leaderboard_score)
      = [(18 : ℝ)] ∧ (18 : ℝ) ≠ 45 := by
  constructor
  · norm_num [recordCompletion, calculateLeaderboardScore, nextId]
  · norm_num

/-- C2 amended: recordCompletion(u, "physical", 35, T) on an empty table
creates a record with totalSessions=1, completedSessions=1,
totalDurationMinutes=35, streakDays=1, lastActivity=T, lastScoreUpdate=T
and leaderboardScore = score(1,35,1) = 18. -/
theorem C2_first_completion (u : Nat) (T : Timestamp) :
    recordCompletion u ("physical") 35 T [] =
      [⟨1, u, "physical", 1, 1, 35, 1, some T,
        ((calculateLeaderboardScore 1 35 1 : Nat) : ℝ), T, T, T⟩] ∧
    calculateLeaderboardScore 1 35 1 = 18 :=
  ⟨rfl, rfl⟩

/-- C4: the score formula is completedSessions * 10 + floor(duration/10)
+ min(streakDays * 5, 100), the streak bonus never exceeds 100, and every
record recordCompletion writes (created or updated, i.e. not a record of
the input table) carries the formula value of its own stored fields. -/
theorem C4_score_formula :
    (∀ c d s, calculateLeaderboardScore c d s = c * 10 + d / 10 + min (s * 5) 100 ∧
      min (s * 5) 100 ≤ 100) ∧
    (∀ u cat dur now t, ∀ r ∈ recordCompletion u cat dur now t, r ∈ t ∨
      r.leaderboard_score =
        ((calculateLeaderboardScore r.completed_sessions r.total_duration r.streak_days : Nat)
          : ℝ)) := by
  constructor
  · intro c d s
    exact ⟨rfl, min_le_right _ _⟩
  · intro u cat dur now t r hr
    unfold recordCompletion at hr
    rcases hh : (t.filter fun s => decide (s.user_id = u ∧ s.category = cat)).head? with
      _ | s0
    · simp only [hh, List.mem_append, List.mem_singleton] at hr
      rcases hr with hr | hr
      · exact Or.inl hr
      · subst hr
        exact Or.inr rfl
    · simp only [hh, List.mem_map] at hr
      obtain ⟨x, _, rfl⟩ := hr
      by_cases hm : x.user_id = u ∧ x.category = cat
      · rw [if_pos hm]
        exact Or.inr rfl
      · rw [if_neg hm]
        left
        assumption

/-- C4 witness: score(2,60,2) = 36 with bonus 10 ≤ 100, and the record
created by a first completion carries the formula value. -/
theorem C4_witness :
    (calculateLeaderboardScore 2 60 2 = 2 * 10 + 60 / 10 + min (2 * 5) 100 ∧
      min (2 * 5) 100 ≤ 100) ∧
    ((⟨1, 1, "physical", 1, 1, 35, 1, some 0,
        ((calculateLeaderboardScore 1 35 1 : Nat) : ℝ), 0, 0, 0⟩ : UserStats) ∈
        recordCompletion 1 "physical" 35 0 []) ∧
    ((⟨1, 1, "physical", 1, 1, 35, 1, some 0,
        ((calculateLeaderboardScore 1 35 1 : Nat) : ℝ), 0, 0, 0⟩ : UserStats) ∈ ([] : List UserStats) ∨
      (⟨1, 1, "physical", 1, 1, 35, 1, some 0,
        ((calculateLeaderboardScore 1 35 1 : Nat) : ℝ), 0, 0, 0⟩ : UserStats).leaderboard_score =
        ((calculateLeaderboardScore 1 35 1 : Nat) : ℝ)) := by
  have hmem : (⟨1, 1, "physical", 1, 1, 35, 1, some 0,
      ((calculateLeaderboardScore 1 35 1 : Nat) : ℝ), 0, 0, 0⟩ : UserStats) ∈
      recordCompletion 1 "physical" 35 0 [] := by
    rw [show recordCompletion 1 "physical" 35 0 [] =
      [⟨1, 1, "physical", 1, 1, 35, 1, some 0,
        ((calculateLeaderboardScore 1 35 1 : Nat) : ℝ), 0, 0, 0⟩] from rfl]
    exact List.mem_singleton.mpr rfl
  exact ⟨C4_score_formula.1 2 60 2, hmem,
    C4_score_formula.2 1 "physical" 35 0 [] _ hmem⟩

/-- The score formula is monotone in each of its three inputs. -/
theorem calculateLeaderboardScore_mono {c c' d d' s s' : Nat}
    (hc : c ≤ c') (hd : d ≤ d') (hs : s ≤ s') :
    calculateLeaderboardScore c d s ≤ calculateLeaderboardScore c' d' s' := by
  have h1 : c * 10 ≤ c' * 10 := Nat.mul_le_mul_right 10 hc
  have h2 : d / 10 ≤ d' / 10 := Nat.div_le_div_right hd
  have h3 : min (s * 5) 100 ≤ min (s' * 5) 100 :=
    min_le_min (Nat.mul_le_mul_right 5 hs) (le_refl 100)
  show c * 10 + d / 10 + min (s * 5) 100 ≤ c' * 10 + d' / 10 + min (s' * 5) 100
  exact add_le_add (add_le_add h1 h2) h3

/-- C5 counterexample on a reachable state: four daily 10-minute
completions from the empty table build a record with completedSessions=4,
duration 40, streak 4 and score score(4,40,4) = 64; a fifth completion
after a 3-day gap resets the streak and recomputes score(5,50,1) = 60 <
64, so recordCompletion decreased the leaderboard score of a state the
aggregator itself produced. -/
theorem C5_counterexample :
    (recordCompletion 1 ("physical") 10 259200000
      (recordCompletion 1 ("physical") 10 172800000
        (recordCompletion 1 ("physical") 10 86400000
          (recordCompletion 1 ("physical") 10 0 [])))).map (fun s => s.leaderboard_score)
      = [(64 : ℝ)] ∧
    (recordCompletion 1 ("physical") 10 518400000
      (recordCompletion 1 ("physical") 10 259200000
        (recordCompletion 1 ("physical") 10 172800000
          (recordCompletion 1 ("physical") 10 86400000
            (recordCompletion 1 ("physical") 10 0 []))))).map (fun s => s.leaderboard_score)
      = [(60 : ℝ)] ∧
    (60 : ℝ) < 64 := by
  refine ⟨?_, ?_, by norm_num⟩
  · norm_num [recordCompletion, computeNewStreak, calculateLeaderboardScore, nextId, dayMs]
  · norm_num [recordCompletion, computeNewStreak, calculateLeaderboardScore, nextId, dayMs]

/-- C5 amended: recordCompletion does not decrease the leaderboard score
of any record, provided the streak does not reset (the recomputed streak
is at least the stored one) and every matching record has a stored score
at most the score formula applied to the stored fields of the first
matching record — as holds for scores the aggregator wrote and decay only
lowered.  When the streak resets, the score can decrease, as the
counterexample shows. -/
theorem C5_monotone_without_reset (u : Nat) (c : String) (d : Nat) (now : Timestamp)
    (t : List UserStats) (s0 : UserStats)
    (hHead : (t.filter fun s => decide (s.user_id = u ∧ s.category = c)).head? = some s0)
    (hStreak : s0.streak_days ≤ computeNewStreak now s0)
    (hBound : ∀ s ∈ t, s.user_id = u → s.category = c →
      s.leaderboard_score ≤
        ((calculateLeaderboardScore s0.completed_sessions s0.total_duration s0.streak_days
          : Nat) : ℝ)) :
    List.Forall₂ (fun a b => a.leaderboard_score ≤ b.leaderboard_score) t
      ((recordCompletion u c d now t).take t.length) := by
  unfold recordCompletion
  simp only [hHead]
  have hlen : (t.map fun s =>
      if s.user_id = u ∧ s.category = c then
        { s with
          total_sessions := s0.total_sessions + 1
          completed_sessions := s0.completed_sessions + 1
          total_duration := s0.total_duration + d
          streak_days := computeNewStreak now s0
          last_activity := some now
          leaderboard_score :=
            ((calculateLeaderboardScore (s0.completed_sessions + 1) (s0.total_duration + d)
              (computeNewStreak now s0) : Nat) : ℝ)
          last_score_update := now
          updated_at := now }
      else s).length = t.length := List.length_map _ _
  rw [show t.length = (t.map fun s =>
      if s.user_id = u ∧ s.category = c then
        { s with
          total_sessions := s0.total_sessions + 1
          completed_sessions := s0.completed_sessions + 1
          total_duration := s0.total_duration + d
          streak_days := computeNewStreak now s0
          last_activity := some now
          leaderboard_score :=
            ((calculateLeaderboardScore (s0.completed_sessions + 1) (s0.total_duration + d)
              (computeNewStreak now s0) : Nat) : ℝ)
          last_score_update := now
          updated_at := now }
      else s).length from hlen.symm, List.take_length]
  rw [List.forall₂_map_right_iff]
  rw [List.forall₂_same]
  intro x hx
  by_cases hm : x.user_id = u ∧ x.category = c
  · rw [if_pos hm]
    refine le_trans (hBound x hx hm.1 hm.2) ?_
    have : calculateLeaderboardScore s0.completed_sessions s0.total_duration s0.streak_days ≤
        calculateLeaderboardScore (s0.completed_sessions + 1) (s0.total_duration + d)
          (computeNewStreak now s0) :=
      calculateLeaderboardScore_mono (Nat.le_succ _) (Nat.le_add_right _ _) hStreak
    exact_mod_cast Nat.cast_le.mpr this
  · rw [if_neg hm]

/-- C5 witness: a next-day completion on c1Stats (streak 3 → 4, stored
score 45 ≤ score(3,100,3) = 55) does not decrease the score. -/
theorem C5_witness :
    (([c1Stats].filter fun s => decide (s.user_id = 1 ∧ s.category = "physical")).head?
        = some c1Stats) ∧
    c1Stats.streak_days ≤ computeNewStreak 86400000 c1Stats ∧
    List.Forall₂ (fun a b => a.leaderboard_score ≤ b.leaderboard_score) [c1Stats]
      ((recordCompletion 1 "physical" 10 86400000 [c1Stats]).take [c1Stats].length) := by
  have hs : c1Stats.streak_days ≤ computeNewStreak 86400000 c1Stats := by
    norm_num [computeNewStreak, c1Stats, dayMs]
  refine ⟨rfl, hs, C5_monotone_without_reset 1 "physical" 10 86400000 [c1Stats] c1Stats rfl hs ?_⟩
  intro s hsmem _ _
  rw [List.mem_singleton] at hsmem
  subst hsmem
  norm_num [c1Stats, calculateLeaderboardScore]

/-- C3: sweepAndDecay(now) keeps the table length unchanged, rewrites
exactly the rows with lastScoreUpdate < now − 24h and leaderboardScore >
0 (each becomes its old self with score multiplied by 0.98 ^ elapsedDays,
elapsedDays fractional, and lastScoreUpdate = now, and is genuinely
changed), leaves every other row — in particular rows updated within the
last 24h or with score 0 — unmodified, and returns the number of rows
matched by the eligibility condition. -/
theorem C3_sweep (now : Timestamp) (t : List UserStats) :
    (updateLeaderboardScores now t).1.length = t.length ∧
    (∀ i (h : i < t.length),
      (decayEligible now t[i] →
        (updateLeaderboardScores now t).1.getD i dummyStats =
          { t[i] with
            leaderboard_score := t[i].leaderboard_score *
              (0.98 : ℝ) ^ (((now - t[i].last_score_update : Int) : ℝ) / (dayMs : ℝ))
            last_score_update := now } ∧
        (updateLeaderboardScores now t).1.getD i dummyStats ≠ t[i]) ∧
      (¬ decayEligible now t[i] →
        (updateLeaderboardScores now t).1.getD i dummyStats = t[i])) ∧
    (updateLeaderboardScores now t).2 = t.countP (fun s => decide (decayEligible now s)) ∧
    (∀ s : UserStats, decayEligible now s ↔
      s.last_score_update < now - dayMs ∧ 0 < s.leaderboard_score) := by
  refine ⟨List.length_map _ _, ?_, rfl, fun s => Iff.rfl⟩
  intro i h
  have hmap : (updateLeaderboardScores now t).1.getD i dummyStats =
      if decayEligible now t[i] then decayRecord now t[i] else t[i] := by
    unfold updateLeaderboardScores
    rw [List.getD_eq_getElem _ _ (by simpa using h)]
    simp
  constructor
  · intro helig
    constructor
    · rw [hmap, if_pos helig]
      rfl
    · rw [hmap, if_pos helig]
      intro heq
      have hlsu := congrArg UserStats.last_score_update heq
      have h1 : (decayRecord now t[i]).last_score_update = now := rfl
      rw [h1] at hlsu
      have h2 := helig.1
      unfold dayMs at h2
      linarith
  · intro hne
    rw [hmap, if_neg hne]

/-- C3 witness: a row with positive score last updated exactly two days
before the sweep is decayed to score * 0.98 ^ 2 days and counted. -/
theorem C3_witness :
    decayEligible 172800000 cSweepStats ∧
    (updateLeaderboardScores 172800000 [cSweepStats]).1.getD 0 dummyStats =
      { cSweepStats with
        leaderboard_score := cSweepStats.leaderboard_score *
          (0.98 : ℝ) ^ (((172800000 - cSweepStats.last_score_update : Int) : ℝ) / (dayMs : ℝ))
        last_score_update := 172800000 } ∧
    (updateLeaderboardScores 172800000 [cSweepStats]).2 = 1 := by
  have helig : decayEligible 172800000 cSweepStats := by
    refine ⟨by norm_num [cSweepStats, dayMs], by norm_num [cSweepStats]⟩
  refine ⟨helig, ((C3_sweep 172800000 [cSweepStats]).2.1 0 (by norm_num)).1 helig |>.1, ?_⟩
  norm_num [updateLeaderboardScores, decayEligible, cSweepStats, dayMs]

/-- After one application of the row transformer of the sweep at time now, a
row is never again eligible for decay at the same time now. -/
theorem decay_not_eligible_again (now : Timestamp) (s : UserStats) :
    ¬ decayEligible now (if decayEligible now s then decayRecord now s else s) := by
  by_cases h : decayEligible now s
  · rw [if_pos h]
    intro hcon
    have h1 : (decayRecord now s).last_score_update = now := rfl
    have h2 := hcon.1
    rw [h1] at h2
    unfold dayMs at h2
    linarith
  · rw [if_neg h]
    exact h

/-- C6: sweepAndDecay is idempotent at a fixed timestamp: running the
sweep again at the same time on the already-swept table changes no record
and reports updatedCount = 0, because for every eligible row the
lastScoreUpdate was just set to now, inside the 24h grace window. -/
theorem C6_idempotent (now : Timestamp) (t : List UserStats) :
    updateLeaderboardScores now (updateLeaderboardScores now t).1 =
      ((updateLeaderboardScores now t).1, 0) := by
  unfold updateLeaderboardScores
  simp only [Prod.mk.injEq]
  constructor
  · rw [List.map_map]
    apply List.map_congr_left
    intro a _
    show (fun s => if decayEligible now s then decayRecord now s else s)
      (if decayEligible now a then decayRecord now a else a) =
      if decayEligible now a then decayRecord now a else a
    simp only
    rw [if_neg (decay_not_eligible_again now a)]
  · rw [List.countP_eq_zero]
    intro a ha
    rw [List.mem_map] at ha
    obtain ⟨x, _, rfl⟩ := ha
    simp only [decide_eq_true_eq]
    exact decay_not_eligible_again now x

/-- Taking the original length of a mapped list returns the whole map. -/
theorem take_length_map {α β : Type} (f : α → β) (l : List α) :
    (l.map f).take l.length = l.map f := by
  rw [← List.length_map l f, List.take_length]

/-- C7: every core operation preserves completedSessions ≤ totalSessions
and leaderboardScore ≥ 0 for every row; getLeaderboard is a pure read so
its results satisfy the invariant; and whenever recordCompletion (under a
monotone clock) or the decay sweep changes the leaderboardScore of a row, that
lastScoreUpdate of that row is advanced to now. -/
theorem C7_invariant_preservation :
    (∀ u c d now t, TableInvariant t → TableInvariant (recordCompletion u c d now t)) ∧
    (∀ now t, TableInvariant t → TableInvariant (updateLeaderboardScores now t).1) ∧
    (∀ input t, TableInvariant t → ∀ r ∈ getLeaderboard input t, StatsInvariant r) ∧
    (∀ uid cat now ss t, TableInvariant t →
      TableInvariant (getUserStats uid cat now ss t).2) ∧
    (∀ u c d now t, (∀ s ∈ t, s.last_score_update ≤ now) →
      List.Forall₂ (fun a b => a.leaderboard_score ≠ b.leaderboard_score →
        a.last_score_update ≤ b.last_score_update ∧ b.last_score_update = now) t
        ((recordCompletion u c d now t).take t.length)) ∧
    (∀ now t, List.Forall₂ (fun a b => a.leaderboard_score ≠ b.leaderboard_score →
      a.last_score_update < b.last_score_update ∧ b.last_score_update = now) t
      (updateLeaderboardScores now t).1) := by
  refine ⟨?_, ?_, ?_, ?_, ?_, ?_⟩
  · intro u c d now t hinv
    unfold recordCompletion
    rcases hh : (t.filter fun s => decide (s.user_id = u ∧ s.category = c)).head? with _ | s0
    · simp only [hh]
      intro r hr
      rw [List.mem_append, List.mem_singleton] at hr
      rcases hr with hr | hr
      · exact hinv r hr
      · subst hr
        exact ⟨le_refl 1, Nat.cast_nonneg _⟩
    · simp only [hh]
      have hs0 : s0 ∈ t :=
        List.mem_of_mem_filter (List.mem_of_mem_head? (Option.mem_def.mpr hh))
      intro r hr
      rw [List.mem_map] at hr
      obtain ⟨x, hx, rfl⟩ := hr
      by_cases hm : x.user_id = u ∧ x.category = c
      · rw [if_pos hm]
        exact ⟨Nat.succ_le_succ (hinv s0 hs0).1, Nat.cast_nonneg _⟩
      · rw [if_neg hm]
        exact hinv x hx
  · intro now t hinv r hr
    unfold updateLeaderboardScores at hr
    rw [List.mem_map] at hr
    obtain ⟨x, hx, rfl⟩ := hr
    by_cases he : decayEligible now x
    · rw [if_pos he]
      refine ⟨(hinv x hx).1, ?_⟩
      exact mul_nonneg (hinv x hx).2 (Real.rpow_nonneg (by norm_num) _)
    · rw [if_neg he]
      exact hinv x hx
  · intro input t hinv r hr
    simp only [getLeaderboard] at hr
    have hr2 := List.mem_of_mem_take hr
    have hr3 := (List.perm_insertionSort scoreDescOrder _).mem_iff.mp hr2
    rcases hcat : input.category with _ | c
    · rw [hcat] at hr3
      exact hinv r hr3
    · rw [hcat] at hr3
      exact hinv r (List.mem_of_mem_filter hr3)
  · intro uid cat now ss t hinv r hr
    simp only [getUserStats] at hr
    rw [List.mem_map] at hr
    obtain ⟨x, hx, rfl⟩ := hr
    by_cases hm : x.user_id = uid ∧ categoryMatches cat x = true ∧
        streakResetEligible uid now ss x
    · rw [if_pos hm]
      exact ⟨(hinv x hx).1, (hinv x hx).2⟩
    · rw [if_neg hm]
      exact hinv x hx
  · intro u c d now t hclock
    unfold recordCompletion
    rcases hh : (t.filter fun s => decide (s.user_id = u ∧ s.category = c)).head? with _ | s0
    · simp only [hh]
      rw [List.take_left t _]
      rw [List.forall₂_same]
      intro x _ hne
      exact absurd rfl hne
    · simp only [hh]
      rw [take_length_map, List.forall₂_map_right_iff, List.forall₂_same]
      intro x hx
      by_cases hm : x.user_id = u ∧ x.category = c
      · rw [if_pos hm]
        intro _
        exact ⟨hclock x hx, rfl⟩
      · rw [if_neg hm]
        intro hne
        exact absurd rfl hne
  · intro now t
    unfold updateLeaderboardScores
    rw [List.forall₂_map_right_iff, List.forall₂_same]
    intro x _
    by_cases he : decayEligible now x
    · rw [if_pos he]
      intro _
      refine ⟨?_, rfl⟩
      have h2 : (decayRecord now x).last_score_update = now := rfl
      rw [h2]
      have h1 := he.1
      unfold dayMs at h1
      linarith
    · rw [if_neg he]
      intro hne
      exact absurd rfl hne

/-- C7 witness: the operations applied to a one-row table with a valid
row preserve the invariant, and the changed-score rows advance
lastScoreUpdate. -/
theorem C7_witness :
    TableInvariant [cSweepStats] ∧
    TableInvariant (recordCompletion 1 "physical" 10 0 [cSweepStats]) ∧
    TableInvariant (updateLeaderboardScores 172800000 [cSweepStats]).1 ∧
    (∀ r ∈ getLeaderboard ⟨none, none⟩ [cSweepStats], StatsInvariant r) ∧
    TableInvariant (getUserStats 1 none 0 [] [cSweepStats]).2 ∧
    (∀ s ∈ [cSweepStats], s.last_score_update ≤ (172800000 : Timestamp)) ∧
    List.Forall₂ (fun a b => a.leaderboard_score ≠ b.leaderboard_score →
      a.last_score_update ≤ b.last_score_update ∧ b.last_score_update = (172800000 : Timestamp))
      [cSweepStats] ((recordCompletion 1 "physical" 10 172800000 [cSweepStats]).take 1) ∧
    List.Forall₂ (fun a b => a.leaderboard_score ≠ b.leaderboard_score →
      a.last_score_update < b.last_score_update ∧ b.last_score_update = (172800000 : Timestamp))
      [cSweepStats] (updateLeaderboardScores 172800000 [cSweepStats]).1 := by
  have hinv : TableInvariant [cSweepStats] := by
    intro s hs
    rw [List.mem_singleton] at hs
    subst hs
    exact ⟨by norm_num [cSweepStats], by norm_num [cSweepStats]⟩
  have hclock : ∀ s ∈ [cSweepStats], s.last_score_update ≤ (172800000 : Timestamp) := by
    intro s hs
    rw [List.mem_singleton] at hs
    subst hs
    norm_num [cSweepStats]
  exact ⟨hinv,
    C7_invariant_preservation.1 1 "physical" 10 0 [cSweepStats] hinv,
    C7_invariant_preservation.2.1 172800000 [cSweepStats] hinv,
    C7_invariant_preservation.2.2.1 ⟨none, none⟩ [cSweepStats] hinv,
    C7_invariant_preservation.2.2.2.1 1 none 0 [] [cSweepStats] hinv,
    hclock,
    C7_invariant_preservation.2.2.2.2.1 1 "physical" 10 172800000 [cSweepStats] hclock,
    C7_invariant_preservation.2.2.2.2.2 172800000 [cSweepStats]⟩

/-- Sorting a list by descending score and truncating yields a sorted
sublist of the input of bounded length. -/
theorem leaderboard_core (flt : List UserStats) (n : Nat) :
    List.Sorted scoreDescOrder ((List.insertionSort scoreDescOrder flt).take n) ∧
    (∀ r ∈ (List.insertionSort scoreDescOrder flt).take n, r ∈ flt) ∧
    ((List.insertionSort scoreDescOrder flt).take n).length ≤ n := by
  refine ⟨?_, ?_, ?_⟩
  · exact List.Pairwise.sublist (List.take_sublist _ _) (List.sorted_insertionSort _ _)
  · intro r hr
    exact (List.perm_insertionSort _ _).mem_iff.mp (List.mem_of_mem_take hr)
  · rw [List.length_take]
    exact min_le_left _ _

/-- C8: getLeaderboard returns rows sorted by leaderboardScore
descending, drawn from the table, restricted to the requested category
when one is supplied, and truncated to the effective limit; with no limit
the effective limit is 10, and a schema-valid limit is positive and at
most 100. -/
theorem C8_leaderboard (input : GetLeaderboardInput) (t : List UserStats)
    (hvalid : getLeaderboardInputValid input) :
    List.Sorted scoreDescOrder (getLeaderboard input t) ∧
    (∀ c, input.category = some c → ∀ r ∈ getLeaderboard input t, r.category = c) ∧
    (∀ r ∈ getLeaderboard input t, r ∈ t) ∧
    (getLeaderboard input t).length ≤ input.limit.getD 10 ∧
    0 < input.limit.getD 10 ∧ input.limit.getD 10 ≤ 100 := by
  obtain ⟨cat, lim⟩ := input
  rcases lim with _ | l
  · rcases cat with _ | c
    · refine ⟨(leaderboard_core t 10).1, ?_, (leaderboard_core t 10).2.1,
        (leaderboard_core t 10).2.2, by norm_num, by norm_num⟩
      intro c hc
      exact absurd hc (by simp)
    · refine ⟨(leaderboard_core _ 10).1, ?_, ?_, (leaderboard_core _ 10).2.2,
        by norm_num, by norm_num⟩
      · intro c2 hc2 r hr
        have hrf := (leaderboard_core (t.filter fun s => decide (s.category = c)) 10).2.1 r hr
        rw [List.mem_filter, decide_eq_true_eq] at hrf
        rw [show c2 = c from ((Option.some.injEq c c2).mp hc2).symm]
        exact hrf.2
      · intro r hr
        have hrf := (leaderboard_core (t.filter fun s => decide (s.category = c)) 10).2.1 r hr
        exact List.mem_of_mem_filter hrf
  · have hl := hvalid l rfl
    have hne : ¬ l = 0 := by omega
    simp only [Option.getD_some]
    rcases cat with _ | c
    · have hdef : getLeaderboard ⟨none, some l⟩ t =
          (List.insertionSort scoreDescOrder t).take l := by
        simp only [getLeaderboard]
        rw [if_neg hne]
      rw [hdef]
      refine ⟨(leaderboard_core t l).1, ?_, (leaderboard_core t l).2.1,
        (leaderboard_core t l).2.2, hl.1, hl.2⟩
      intro c hc
      exact absurd hc (by simp)
    · have hdef : getLeaderboard ⟨some c, some l⟩ t =
          (List.insertionSort scoreDescOrder
            (t.filter fun s => decide (s.category = c))).take l := by
        simp only [getLeaderboard]
        rw [if_neg hne]
      rw [hdef]
      refine ⟨(leaderboard_core _ l).1, ?_, ?_, (leaderboard_core _ l).2.2, hl.1, hl.2⟩
      · intro c2 hc2 r hr
        have hrf := (leaderboard_core (t.filter fun s => decide (s.category = c)) l).2.1 r hr
        rw [List.mem_filter, decide_eq_true_eq] at hrf
        rw [show c2 = c from ((Option.some.injEq c c2).mp hc2).symm]
        exact hrf.2
      · intro r hr
        have hrf := (leaderboard_core (t.filter fun s => decide (s.category = c)) l).2.1 r hr
        exact List.mem_of_mem_filter hrf

/-- C8 witness: a category-filtered query with limit 2 over three rows is
sorted, category-pure, drawn from the table and within the limit. -/
theorem C8_witness :
    getLeaderboardInputValid ⟨some ("physical"), some 2⟩ ∧
    List.Sorted scoreDescOrder
      (getLeaderboard ⟨some ("physical"), some 2⟩ [cLeader1, cLeader2, cLeader3]) ∧
    (∀ r ∈ getLeaderboard ⟨some ("physical"), some 2⟩ [cLeader1, cLeader2, cLeader3],
      r ∈ [cLeader1, cLeader2, cLeader3]) ∧
    (getLeaderboard ⟨some ("physical"), some 2⟩ [cLeader1, cLeader2, cLeader3]).length ≤
      (some 2).getD 10 := by
  have hvalid : getLeaderboardInputValid ⟨some ("physical"), some 2⟩ := by
    intro l hl
    cases hl
    norm_num
  have h := C8_leaderboard ⟨some ("physical"), some 2⟩ [cLeader1, cLeader2, cLeader3] hvalid
  exact ⟨hvalid, h.1, h.2.2.1, h.2.2.2.1⟩

/-- C9: error routing is asymmetric. A stats-write failure during
completeSession is swallowed: the call still returns the completed
session (with the table left unchanged when the write failed), while a
failure inside the decay sweep propagates as an error to its caller; a
successful sweep returns its result. -/
theorem C9_error_routing :
    (∀ (statsWriteFails : Bool) (input : CompleteSessionInput) (now : Timestamp)
        (sessions : List SessionRow) (goals : List Goal) (table : List UserStats)
        (session : SessionRow),
      (sessions.filter fun s => decide (s.id = input.session_id)).head? = some session →
      session.status = "active" →
      completeSession statsWriteFails input now sessions goals table =
        .ok ({ session with
                status := "completed"
                completed_at := some now
                actual_duration := some (jsOr input.actual_duration session.planned_duration)
                updated_at := now },
             if statsWriteFails then table
             else updateUserStats session.user_id
               { session with
                 status := "completed"
                 completed_at := some now
                 actual_duration := some (jsOr input.actual_duration session.planned_duration)
                 updated_at := now } goals now table)) ∧
    (∀ (now : Timestamp) (table : List UserStats),
      runUpdateLeaderboardScores true now table = .error ("Leaderboard score update failed")) ∧
    (∀ (now : Timestamp) (table : List UserStats),
      runUpdateLeaderboardScores false now table = .ok (updateLeaderboardScores now table)) := by
  refine ⟨?_, fun now table => rfl, fun now table => rfl⟩
  intro statsWriteFails input now sessions goals table session hHead hActive
  unfold completeSession
  simp only [hHead]
  rw [if_pos hActive]

/-- C9 witness: with an injected stats-write failure, completing the
sample active session still returns the completed session and leaves the
stats table unchanged, while the failing sweep returns an error. -/
theorem C9_witness :
    (([cSessionRow].filter fun s => decide (s.id = (4 : Nat))).head? = some cSessionRow) ∧
    cSessionRow.status = "active" ∧
    completeSession true ⟨4, none⟩ 100 [cSessionRow] [cGoal] [] =
      .ok ({ cSessionRow with
              status := "completed"
              completed_at := some 100
              actual_duration := some (jsOr none cSessionRow.planned_duration)
              updated_at := 100 }, if true then ([] : List UserStats)
                else updateUserStats cSessionRow.user_id
                  { cSessionRow with
                    status := "completed"
                    completed_at := some 100
                    actual_duration := some (jsOr none cSessionRow.planned_duration)
                    updated_at := 100 } [cGoal] 100 []) ∧
    runUpdateLeaderboardScores true 100 [] = .error ("Leaderboard score update failed") :=
  ⟨rfl, rfl,
    C9_error_routing.1 true ⟨4, none⟩ 100 [cSessionRow] [cGoal] [] cSessionRow rfl rfl,
    C9_error_routing.2.1 100 []⟩

/-- C10: getUserStats writes back at most a streak reset: the table keeps
its length, every row keeps its leaderboard score, session counters,
total duration and last activity; a row is changed only when it belongs
to the queried user, matches the category filter, has a last activity
older than 24 hours, the user has no completed session in the last 24
hours and the streak is positive — and then only streak_days (to 0) and
last_score_update (to now, advancing the decay clock) change. -/
theorem C10_user_stats_frame (uid : Nat) (cat : Option String) (now : Timestamp)
    (ss : List SessionRow) (t : List UserStats) :
    (getUserStats uid cat now ss t).2.length = t.length ∧
    (∀ i (h : i < t.length),
      ((getUserStats uid cat now ss t).2.getD i dummyStats).leaderboard_score =
        t[i].leaderboard_score ∧
      ((getUserStats uid cat now ss t).2.getD i dummyStats).total_sessions =
        t[i].total_sessions ∧
      ((getUserStats uid cat now ss t).2.getD i dummyStats).completed_sessions =
        t[i].completed_sessions ∧
      ((getUserStats uid cat now ss t).2.getD i dummyStats).total_duration =
        t[i].total_duration ∧
      ((getUserStats uid cat now ss t).2.getD i dummyStats).last_activity =
        t[i].last_activity ∧
      (¬ (t[i].user_id = uid ∧ categoryMatches cat t[i] = true ∧
          streakResetEligible uid now ss t[i]) →
        (getUserStats uid cat now ss t).2.getD i dummyStats = t[i]) ∧
      ((t[i].user_id = uid ∧ categoryMatches cat t[i] = true ∧
          streakResetEligible uid now ss t[i]) →
        ((getUserStats uid cat now ss t).2.getD i dummyStats).streak_days = 0 ∧
        ((getUserStats uid cat now ss t).2.getD i dummyStats).last_score_update = now)) ∧
    (∀ s : UserStats, streakResetEligible uid now ss s ↔
      ((∃ la, s.last_activity = some la ∧ la < now - dayMs) ∧
       (recentCompletedSessions uid (now - dayMs) ss).length = 0 ∧
       0 < s.streak_days)) := by
  refine ⟨by simp [getUserStats], ?_, ?_⟩
  · intro i h
    have hmap : (getUserStats uid cat now ss t).2.getD i dummyStats =
        if t[i].user_id = uid ∧ categoryMatches cat t[i] = true ∧
            streakResetEligible uid now ss t[i] then
          resetStreak now t[i]
        else t[i] := by
      unfold getUserStats
      rw [List.getD_eq_getElem _ _ (by simpa using h)]
      simp
    by_cases hc : t[i].user_id = uid ∧ categoryMatches cat t[i] = true ∧
        streakResetEligible uid now ss t[i]
    · rw [hmap, if_pos hc]
      exact ⟨rfl, rfl, rfl, rfl, rfl, fun hn => absurd hc hn, fun _ => ⟨rfl, rfl⟩⟩
    · rw [hmap, if_neg hc]
      exact ⟨rfl, rfl, rfl, rfl, rfl, fun _ => rfl, fun hp => absurd hp hc⟩
  · intro s
    unfold streakResetEligible timeBefore
    rcases hla : s.last_activity with _ | la
    · simp
    · simp [decide_eq_true_eq]

/-- C10 witness: reading the stats of user 1 at now = 3 days, whose only
row has last activity at epoch 0, streak 3 and no recent completed
session, preserves the score and the counters and resets only the streak
and the decay clock. -/
theorem C10_witness :
    (0 : Nat) < [c1Stats].length ∧
    ((getUserStats 1 none 259200000 [] [c1Stats]).2.getD 0 dummyStats).leaderboard_score =
      c1Stats.leaderboard_score ∧
    (c1Stats.user_id = 1 ∧ categoryMatches none c1Stats = true ∧
      streakResetEligible 1 259200000 [] c1Stats) ∧
    ((getUserStats 1 none 259200000 [] [c1Stats]).2.getD 0 dummyStats).streak_days = 0 ∧
    ((getUserStats 1 none 259200000 [] [c1Stats]).2.getD 0 dummyStats).last_score_update =
      259200000 := by
  have h0 : (0 : Nat) < [c1Stats].length := by norm_num
  have hc : c1Stats.user_id = 1 ∧ categoryMatches none c1Stats = true ∧
      streakResetEligible 1 259200000 [] c1Stats := by
    refine ⟨rfl, rfl, ?_⟩
    refine ⟨?_, rfl, ?_⟩
    · norm_num [timeBefore, c1Stats, dayMs]
    · norm_num [c1Stats]
  have h := (C10_user_stats_frame 1 none 259200000 [] [c1Stats]).2.1 0 h0
  exact ⟨h0, h.1, hc, (h.2.2.2.2.2.2 hc).1, (h.2.2.2.2.2.2 hc).2⟩

end OctaFocus
